import Mathlib

/-!
Verification of the PriceTrackGo product-catalog store and refresh engine.

The repository carries two copies of the engine:

* `src/unnamed/part_000` (Go package `database`): per-user collections keyed by
  user name, products carrying `min_price` / `max_price` aggregates, a
  single-product `UpdatePrices`, and `UpsertProduct` / `UpdateIncompleteRecords`.
  It is embedded below in namespace `Database`.
* `src/backend/mongo.go` (Go package `main`): a `MongoDB` handle over database
  `"price_tracker"`, products without aggregate fields, a whole-collection
  `UpdatePrices` pipeline, `AddPrice`, and an `UpdateIncompleteRecords` that
  opens a fresh handle on the fixed collection `"cypher"`.  It is embedded in
  namespace `Backend`.

Modelling conventions: prices are rationals (`float64` rounding plays no role in
any property below), timestamps are natural-number clock ticks standing for
`time.Now()`, a Mongo collection is the list of its documents in insertion
order (the unique index on `product_url` is what `FindOne` / `UpdateOne`
first-match semantics key on), and the external scrapers are oracle parameters,
mirroring the spec's treatment of them as pure functions of the URL.
-/

namespace PriceTrack

/-- Go `strings.Contains s pat`: `pat` occurs as a contiguous substring of `s`. -/
def strHasSub (s pat : String) : Bool :=
  (List.range (s.length + 1)).any fun i =>
    ((s.toList.drop i).take pat.length) == pat.toList

/-- Model of `strconv.ParseFloat _ 64` restricted to the unsigned integer price
strings exchanged with the scrapers; on a nonempty all-digit string it returns
the denoted number exactly (as `ParseFloat` does for these magnitudes), on
anything else it fails. -/
def parseFloat (s : String) : Option ℚ :=
  if s.length ≠ 0 ∧ s.toList.all Char.isDigit then
    some ((s.toList.foldl (fun a c => 10 * a + (c.toNat - 48)) 0 : ℕ) : ℚ)
  else none

/-- One price observation, bson `{value, timestamp}`. -/
structure Price where
  value : ℚ
  timestamp : ℕ
deriving DecidableEq, Repr

/-- Minimum of a list of rationals, `none` on the empty list. -/
def listMinQ : List ℚ → Option ℚ
  | [] => none
  | x :: xs =>
    match listMinQ xs with
    | none => some x
    | some m => some (min x m)

/-- Maximum of a list of rationals, `none` on the empty list. -/
def listMaxQ : List ℚ → Option ℚ
  | [] => none
  | x :: xs =>
    match listMaxQ xs with
    | none => some x
    | some m => some (max x m)

namespace Coll

/-- `FindOne` on a collection: first document whose key field equals `url`. -/
def find? {α : Type} (key : α → String) (url : String) : List α → Option α
  | [] => none
  | a :: rest => if key a == url then some a else Coll.find? key url rest

/-- `UpdateOne` with a whole-document `$set`: replace the first document whose
key field equals `url`. -/
def set {α : Type} (key : α → String) (url : String) (v : α) : List α → List α
  | [] => []
  | a :: rest => if key a == url then v :: rest else a :: Coll.set key url v rest

/-- `UpdateOne ... SetUpsert(true)`: replace the first match, or insert the
document when no document matches the filter. -/
def upsert {α : Type} (key : α → String) (url : String) (v : α) (l : List α) : List α :=
  match Coll.find? key url l with
  | some _ => Coll.set key url v l
  | none => l ++ [v]

end Coll

namespace Database

/-- Modelled from the spec: the `models.Product` struct of package `models` is
not under `src/`; its fields are fixed by the spec's persisted document shape
(§6: `product_url`, `product_name`, `image_url`, `specifications`,
`price_history`, `min_price`, `max_price`) and by the field accesses in
`src/unnamed/part_000` (`ProductURL`, `ProductName`, `PriceHistory`,
`MinPrice`, `MaxPrice`). -/
structure Product where
  ProductURL : String
  ProductName : String
  ImageURL : String
  Specifications : List String
  PriceHistory : List Price
  MinPrice : ℚ
  MaxPrice : ℚ
deriving DecidableEq, Repr

/-- A user's collection: its documents in insertion order. -/
abbrev Collection := List Product

/-- `FindOne` by `product_url` in this user's collection. -/
def findByURL (url : String) (coll : Collection) : Option Product :=
  Coll.find? Product.ProductURL url coll

/-- `UpdateOne` with `$set` of a whole product and `SetUpsert(true)`. -/
def upsertByURL (url : String) (v : Product) (coll : Collection) : Collection :=
  Coll.upsert Product.ProductURL url v coll

/-- `UpsertProduct` of `src/unnamed/part_000` lines 39-70: look the URL up; when
a document exists, carry its `PriceHistory` over into the incoming product (the
corresponding lines for `MinPrice` / `MaxPrice` are commented out in the
source, so those two fields are taken from the incoming product); then
`$set`-upsert keyed on `product_url`.  Lookup transport errors (the
non-`ErrNoDocuments` branch) are outside the model. -/
def UpsertProduct (product : Product) (coll : Collection) : Collection :=
  match findByURL product.ProductURL coll with
  | some existing =>
      upsertByURL product.ProductURL
        { product with PriceHistory := existing.PriceHistory } coll
  | none => upsertByURL product.ProductURL product coll

/-- Oracles for one refresh: each scraper returns Go's two values
`(priceStr, err)` with `true` meaning a non-nil error, and `writeOk` tells
whether the final `UpdateOne` succeeds for a given URL. -/
structure ScrapeEnv where
  flipkart : String → String × Bool
  amazon : String → String × Bool
  writeOk : String → Bool

/-- Error results surfaced by the `database` package operations. -/
inductive GoErr where
  | scrape (vendor : String)
  | parse (s : String)
  | write
deriving DecidableEq, Repr

/-- The aggregate update for `min_price`, `src/unnamed/part_000` lines 108-110:
`if product.MinPrice == 0 || currentPrice < product.MinPrice`. -/
def updMin (minPrice currentPrice : ℚ) : ℚ :=
  if minPrice = 0 ∨ currentPrice < minPrice then currentPrice else minPrice

/-- The aggregate update for `max_price`, `src/unnamed/part_000` lines 111-113:
`if product.MaxPrice == 0 || currentPrice > product.MaxPrice`. -/
def updMax (maxPrice currentPrice : ℚ) : ℚ :=
  if maxPrice = 0 ∨ currentPrice > maxPrice then currentPrice else maxPrice

/-- The single `UpdateOne` of the refresh: `$push` the new price onto
`price_history` and `$set` the two aggregates, on the first document matching
`product_url`. -/
def pushAndSet (url : String) (pr : Price) (minP maxP : ℚ) : Collection → Collection
  | [] => []
  | p :: rest =>
    if p.ProductURL == url then
      { p with PriceHistory := p.PriceHistory ++ [pr],
               MinPrice := minP, MaxPrice := maxP } :: rest
    else p :: pushAndSet url pr minP maxP rest

/-- `UpdatePrices` of `src/unnamed/part_000` lines 74-145, translated with the
brace structure the file actually has: the `else if "amazon"` / `else` chain is
attached to the `if err != nil` that checks the *parse* of the Flipkart price,
not to the outer vendor test.  Consequently a URL without `"flipkart"` falls
through to `return nil` untouched; a URL with `"flipkart"` whose price parses
lands in the chain, where only the `"amazon"` arm reaches the aggregate update
and the store write (the Amazon scrape error itself is logged but not
returned), and the final `else` logs "Unsupported vendor" and returns the
`err` left `nil` by the successful parse.  The result pairs the returned Go
error with the collection after the call. -/
def UpdatePrices (env : ScrapeEnv) (ts : ℕ) (product : Product)
    (coll : Collection) : Option GoErr × Collection :=
  if strHasSub product.ProductURL "flipkart" then
    if (env.flipkart product.ProductURL).2 then (some (.scrape "flipkart"), coll)
    else
      match parseFloat (env.flipkart product.ProductURL).1 with
      | none => (some (.parse (env.flipkart product.ProductURL).1), coll)
      | some _ =>
        if strHasSub product.ProductURL "amazon" then
          match parseFloat (env.amazon product.ProductURL).1 with
          | none => (some (.parse (env.amazon product.ProductURL).1), coll)
          | some currentPrice =>
            let minP := updMin product.MinPrice currentPrice
            let maxP := updMax product.MaxPrice currentPrice
            if env.writeOk product.ProductURL then
              (none, pushAndSet product.ProductURL ⟨currentPrice, ts⟩ minP maxP coll)
            else (some .write, coll)
        else (none, coll)
  else (none, coll)

end Database

namespace Backend

/-- The `Product` struct of `src/backend/mongo.go` lines 21-27; unlike the
`database` package this copy has no aggregate fields. -/
structure Product where
  ProductURL : String
  ProductName : String
  ImageURL : String
  Specifications : List String
  PriceHistory : List Price
deriving DecidableEq, Repr

/-- The handle's collection: its documents in insertion order. -/
abbrev Collection := List Product

/-- `FindOne` by `product_url`. -/
def findByURL (url : String) (coll : Collection) : Option Product :=
  Coll.find? Product.ProductURL url coll

/-- `UpsertProduct` of `src/backend/mongo.go` lines 71-96: look the URL up, carry
an existing document's `PriceHistory` into the incoming product, then
`$set`-upsert keyed on `product_url`. -/
def UpsertProduct (product : Product) (coll : Collection) : Collection :=
  match findByURL product.ProductURL coll with
  | some existing =>
      Coll.upsert Product.ProductURL product.ProductURL
        { product with PriceHistory := existing.PriceHistory } coll
  | none => Coll.upsert Product.ProductURL product.ProductURL product coll

/-- `UpdateOne` with `$push price_history` and no upsert option: the first
document matching `product_url` gets the price appended; when no document
matches, the collection is untouched. -/
def pushPrice (url : String) (pr : Price) : Collection → Collection
  | [] => []
  | p :: rest =>
    if p.ProductURL == url then
      { p with PriceHistory := p.PriceHistory ++ [pr] } :: rest
    else p :: pushPrice url pr rest

/-- `AddPrice` of `src/backend/mongo.go` lines 98-109: one `$push` update with no
upsert option.  The driver's `UpdateOne` reports a zero matched-count, not an
error, when the filter matches nothing, so the returned Go error is `nil` (the
model elides transport failures); the pair is (returned error, collection
after the call). -/
def AddPrice (url : String) (price : ℚ) (ts : ℕ) (coll : Collection) :
    Option Database.GoErr × Collection :=
  (none, pushPrice url ⟨price, ts⟩ coll)

/-- One record yielded by the scan cursor of `UpdatePrices`: either a document
that failed `cursor.Decode`, or the decoded product. -/
inductive ScanItem where
  | decodeFail
  | ok (p : Product)

/-- Observable actions of one pipeline iteration: scraper invocations and the
`log.Printf` diagnostics of `src/backend/mongo.go` lines 137-199. -/
inductive Event where
  | callFlipkart (url : String)
  | callAmazon (url : String)
  | logDecode
  | logScrape (url : String)
  | logParse (s : String)
  | logUnsupported (url : String)
  | logWrite (url : String)
deriving DecidableEq, Repr

/-- Oracles for one pipeline run: the two scrapers return Go's
`(priceStr, err)` with `true` for a non-nil error, `writeOk` tells whether the
`$push` write succeeds for a URL, and `findOk` whether the initial
`collection.Find` succeeds. -/
structure PipelineEnv where
  flipkart : String → String × Bool
  amazon : String → String × Bool
  writeOk : String → Bool
  findOk : Bool

/-- One iteration of the `cursor.Next` loop of `UpdatePrices`
(`src/backend/mongo.go` lines 137-199): decode, vendor dispatch by substring
(`"flipkart"` first, then `"amazon"`, else an unsupported-vendor diagnostic),
scrape, parse, and the `$push` write; every failure logs and `continue`s.
Returns the collection after the iteration and the iteration's events. -/
def processItem (env : PipelineEnv) (ts : ℕ) (item : ScanItem)
    (coll : Collection) : Collection × List Event :=
  match item with
  | .decodeFail => (coll, [.logDecode])
  | .ok product =>
    if strHasSub product.ProductURL "flipkart" then
      if (env.flipkart product.ProductURL).2 then
        (coll, [.callFlipkart product.ProductURL, .logScrape product.ProductURL])
      else
        match parseFloat (env.flipkart product.ProductURL).1 with
        | none =>
          (coll, [.callFlipkart product.ProductURL,
                  .logParse (env.flipkart product.ProductURL).1])
        | some currentPrice =>
          if env.writeOk product.ProductURL then
            (pushPrice product.ProductURL ⟨currentPrice, ts⟩ coll,
             [.callFlipkart product.ProductURL])
          else (coll, [.callFlipkart product.ProductURL, .logWrite product.ProductURL])
    else if strHasSub product.ProductURL "amazon" then
      if (env.amazon product.ProductURL).2 then
        (coll, [.callAmazon product.ProductURL, .logScrape product.ProductURL])
      else
        match parseFloat (env.amazon product.ProductURL).1 with
        | none =>
          (coll, [.callAmazon product.ProductURL,
                  .logParse (env.amazon product.ProductURL).1])
        | some currentPrice =>
          if env.writeOk product.ProductURL then
            (pushPrice product.ProductURL ⟨currentPrice, ts⟩ coll,
             [.callAmazon product.ProductURL])
          else (coll, [.callAmazon product.ProductURL, .logWrite product.ProductURL])
    else (coll, [.logUnsupported product.ProductURL])

/-- The `cursor.Next` loop of `UpdatePrices`: fold `processItem` over the items
the cursor yields, threading the collection, advancing the clock once per
iteration, and concatenating the events in order. -/
def runItems (env : PipelineEnv) (ts : ℕ) (items : List ScanItem)
    (coll : Collection) : Collection × List Event :=
  match items with
  | [] => (coll, [])
  | it :: rest =>
    ((runItems env (ts + 1) rest (processItem env ts it coll).1).1,
     (processItem env ts it coll).2 ++
       (runItems env (ts + 1) rest (processItem env ts it coll).1).2)

/-- `UpdatePrices` of `src/backend/mongo.go` lines 129-202: the only `return`
with a non-nil error is the one for a failed initial `collection.Find`; the
loop body only ever `continue`s, and the function ends in `return nil`.  The
cursor's yield is passed as an explicit list of decode results. -/
def UpdatePrices (env : PipelineEnv) (ts : ℕ) (items : List ScanItem)
    (coll : Collection) : Except String (Collection × List Event) :=
  if env.findOk then .ok (runItems env ts items coll)
  else .error "failed to find products"

/-- A `*MongoDB` handle as far as collection routing is concerned: `NewMongoDB`
fixes the database name to `"price_tracker"` and the collection to the user
name it was called with (`src/backend/mongo.go` lines 35-69; connect, ping and
index creation are assumed to succeed). -/
structure Handle where
  dbName : String
  collName : String
deriving DecidableEq, Repr

/-- `NewMongoDB(uri, username)`: a handle on collection `username` of database
`"price_tracker"`. -/
def NewMongoDB (uri : String) (username : String) : Handle :=
  ⟨"price_tracker", username⟩

/-- The collections of database `"price_tracker"`, keyed by collection name. -/
abbrev DBState := String → Collection

/-- The `$or` filter of `UpdateIncompleteRecords` as it acts on decoded
products, where a bson-absent field decodes to the zero value: name empty,
image empty, or no specifications. -/
def isIncomplete (p : Product) : Bool :=
  p.ProductName == "" || p.ImageURL == "" || p.Specifications.length == 0

/-- Oracle for `scrapeProductDetails`: `none` is a scrape error. -/
structure RepairEnv where
  details : String → Option Product

/-- `UpdateIncompleteRecords` of `src/backend/mongo.go` lines 222-273: the
receiver `m` is never consulted; the method opens `NewMongoDB(MongoURI,
"cypher")`, scans that handle's collection with the incompleteness filter, and
for each match re-scrapes the details and upserts them through `db` — i.e.
into the `"cypher"` collection.  Per-item scrape and upsert errors are logged
and skipped.  The scan is modelled over the collection as it stood when the
cursor was created. -/
def UpdateIncompleteRecords (env : RepairEnv) (m : Handle) (dbs : DBState) :
    DBState :=
  let db := NewMongoDB "MongoURI" "cypher"
  let repaired :=
    ((dbs db.collName).filter isIncomplete).foldl
      (fun acc p =>
        match env.details p.ProductURL with
        | none => acc
        | some updatedProduct => UpsertProduct updatedProduct acc)
      (dbs db.collName)
  fun c => if c = db.collName then repaired else dbs c

end Backend

namespace Bson

/-- A raw stored document as the incomplete-records filter sees it: every field
may be absent.  Only the three fields the filter touches are listed together
with the identifying URL. -/
structure Doc where
  product_url : Option String
  product_name : Option String
  image_url : Option String
  specifications : Option (List String)
deriving DecidableEq, Repr

/-- The `$or` filter sent by `UpdateIncompleteRecords` (identical in
`src/backend/mongo.go` lines 231-240 and `src/unnamed/part_000` lines 151-160):
`product_name` equal to `""` or absent, `image_url` equal to `""` or absent,
`specifications` an array of `$size` 0 or absent. -/
def incompleteFilter (d : Doc) : Bool :=
  (d.product_name == some "") || (d.product_name == none) ||
  (d.image_url == some "") || (d.image_url == none) ||
  (d.specifications == some []) || (d.specifications == none)

/-- Completeness predicate written from the spec's words (I4): name nonempty,
image nonempty, and at least one specification, on the decoded document where
an absent field decodes to its zero value. -/
def isCompleteSpec (d : Doc) : Bool :=
  (d.product_name.getD "" != "") && (d.image_url.getD "" != "") &&
  decide (0 < (d.specifications.getD []).length)

end Bson

/-! Concrete inputs used by the closed theorems below. -/

/-- Price history already accumulated by the stored product of the C1 scenario. -/
def histC1 : List Price := [⟨80, 0⟩, ⟨100, 1⟩]

/-- Stored product of the C1 scenario: two observations, aggregates 80 / 100. -/
def storedC1 : Database.Product :=
  ⟨"https://www.flipkart.com/item", "A", "img", ["s"], histC1, 80, 100⟩

/-- Incoming descriptive re-ingest of the C1 scenario: same URL, fresh
aggregates (0) and empty history, as a scraped details record carries. -/
def incomingC1 : Database.Product :=
  ⟨"https://www.flipkart.com/item", "B", "img2", ["s2"], [], 0, 0⟩

/-- URL of the C2 run; it contains both vendor substrings, which is the only
kind of URL on which the `database` copy of `UpdatePrices` reaches its
aggregate-update and write step. -/
def urlC2 : String := "https://www.flipkart.com/amazon-echo"

/-- Fresh product of the C2 run. -/
def productC2 : Database.Product := ⟨urlC2, "Echo", "img", ["s"], [], 0, 0⟩

/-- First refresh oracles of the C2 run: the Amazon price reads 50. -/
def envC2a : Database.ScrapeEnv :=
  ⟨fun _ => ("999", false), fun _ => ("50", false), fun _ => true⟩

/-- Second refresh oracles of the C2 run: the Amazon price reads 100. -/
def envC2b : Database.ScrapeEnv :=
  ⟨fun _ => ("999", false), fun _ => ("100", false), fun _ => true⟩

/-- The C2 operation sequence from the empty store: upsert, successful refresh
at price 50, descriptive re-upsert, successful refresh at price 100.  Each
refresh is fed the product as it stands in the store, the way the pipeline
reads it from its cursor. -/
def runC2 : Database.Collection :=
  let s1 := Database.UpsertProduct productC2 []
  let s2 :=
    (Database.UpdatePrices envC2a 0 ((Database.findByURL urlC2 s1).getD productC2) s1).2
  let s3 := Database.UpsertProduct { productC2 with ProductName := "Echo v2" } s2
  (Database.UpdatePrices envC2b 1 ((Database.findByURL urlC2 s3).getD productC2) s3).2

/-- URL containing both vendor substrings, for the C3 counterexample. -/
def urlC3 : String := "https://www.flipkart.com/amazon-basics-cable"

/-- Product of the C3 counterexample. -/
def productC3 : Backend.Product := ⟨urlC3, "Cable", "img", ["s"], []⟩

/-- Oracles of the C3 counterexample: both scrapers answer successfully. -/
def envC3 : Backend.PipelineEnv :=
  ⟨fun _ => ("5", false), fun _ => ("7", false), fun _ => true, true⟩

/-- Flipkart product for the C3 witness. -/
def productC3w : Backend.Product := ⟨"https://www.flipkart.com/w3", "W", "i", ["s"], []⟩

/-- Oracles of the C4 witness: the Flipkart scrape fails. -/
def envC4 : Backend.PipelineEnv :=
  ⟨fun _ => ("", true), fun _ => ("42", false), fun _ => true, true⟩

/-- Flipkart product whose scrape fails in the C4 witness. -/
def productC4 : Backend.Product := ⟨"https://www.flipkart.com/w4", "W", "i", ["s"], []⟩

/-- Store of the C4 witness. -/
def collC4 : Backend.Collection := [productC4]

/-- Oracles of the C5 witness: every Flipkart scrape fails, the Amazon scrape
of one URL parses and the other does not, and every write fails. -/
def envC5 : Backend.PipelineEnv :=
  ⟨fun _ => ("", true),
   fun u => if u = "https://www.amazon.in/parsefail" then ("x7", false) else ("42", false),
   fun _ => false, true⟩

/-- Cursor yield of the C5 witness: a decode failure, a scrape failure, a parse
failure, an unsupported vendor, and a write failure. -/
def itemsC5 : List Backend.ScanItem :=
  [.decodeFail,
   .ok ⟨"https://www.flipkart.com/scrapefail", "A", "i", ["s"], []⟩,
   .ok ⟨"https://www.amazon.in/parsefail", "B", "i", ["s"], []⟩,
   .ok ⟨"https://example.com/novendor", "C", "i", ["s"], []⟩,
   .ok ⟨"https://www.amazon.in/writefail", "D", "i", ["s"], []⟩]

/-- Stored product of the C9 witness. -/
def docC9 : Backend.Product := ⟨"https://www.amazon.in/w9", "W", "i", ["s"], []⟩

/-- Store of the C9 witness. -/
def collC9 : Backend.Collection := [docC9]

/-- Incomplete stored product of the C10 counterexample. -/
def incompleteC10 : Backend.Product := ⟨"https://www.amazon.in/p10", "", "", [], []⟩

/-- Details the scraper returns for it. -/
def detailsC10 : Backend.Product :=
  ⟨"https://www.amazon.in/p10", "Widget", "img", ["spec"], []⟩

/-- Repair oracle of the C10 theorems. -/
def envC10 : Backend.RepairEnv := ⟨fun _ => some detailsC10⟩

/-- Database state of the C10 theorems: one incomplete product in `"cypher"`,
nothing anywhere else. -/
def dbsC10 : Backend.DBState := fun c => if c = "cypher" then [incompleteC10] else []

/-- A handle that was itself opened for user `"cypher"`. -/
def handleC10 : Backend.Handle := Backend.NewMongoDB "mongodb://localhost:27017" "cypher"

/-- A handle opened for user `"alice"`, for the C10 witness. -/
def handleC10w : Backend.Handle := Backend.NewMongoDB "mongodb://localhost:27017" "alice"

/-! Helper lemmas about the collection primitives. -/

theorem Coll.find_none_elem {α : Type} (key : α → String) (url : String)
    {l : List α} (h : Coll.find? key url l = none) :
    ∀ a ∈ l, (key a == url) = false := by
  induction l with
  | nil => intro a ha; exact absurd ha (List.not_mem_nil a)
  | cons b rest ih =>
    intro a ha
    by_cases hb : (key b == url) = true
    · simp [Coll.find?, hb] at h
    · rcases List.mem_cons.mp ha with rfl | hmem
      · simpa using hb
      · exact ih (by simpa [Coll.find?, Bool.eq_false_iff.mpr hb] using h) a hmem

theorem Coll.set_of_find_none {α : Type} (key : α → String) (url : String) (v : α)
    {l : List α} (h : Coll.find? key url l = none) :
    Coll.set key url v l = l := by
  induction l with
  | nil => rfl
  | cons b rest ih =>
    have hb : (key b == url) = false :=
      Coll.find_none_elem key url h b (List.mem_cons_self b rest)
    have hrest : Coll.find? key url rest = none := by
      simpa [Coll.find?, hb] using h
    simp [Coll.set, hb, ih hrest]

theorem Coll.find_append_of_none {α : Type} (key : α → String) (url : String) (v : α)
    {l : List α} (h : Coll.find? key url l = none) (hk : (key v == url) = true) :
    Coll.find? key url (l ++ [v]) = some v := by
  induction l with
  | nil => simp [Coll.find?, hk]
  | cons b rest ih =>
    have hb : (key b == url) = false :=
      Coll.find_none_elem key url h b (List.mem_cons_self b rest)
    have hrest : Coll.find? key url rest = none := by
      simpa [Coll.find?, hb] using h
    simpa [Coll.find?, hb] using ih hrest

theorem Coll.set_append_self {α : Type} (key : α → String) (url : String) (v : α)
    {l : List α} (h : Coll.find? key url l = none) (hk : (key v == url) = true) :
    Coll.set key url v (l ++ [v]) = l ++ [v] := by
  induction l with
  | nil => simp [Coll.set, hk]
  | cons b rest ih =>
    have hb : (key b == url) = false :=
      Coll.find_none_elem key url h b (List.mem_cons_self b rest)
    have hrest : Coll.find? key url rest = none := by
      simpa [Coll.find?, hb] using h
    simp [Coll.set, hb, ih hrest]

theorem Coll.find_set_of_found {α : Type} (key : α → String) (url : String) (v : α)
    {l : List α} {e : α} (h : Coll.find? key url l = some e)
    (hk : (key v == url) = true) :
    Coll.find? key url (Coll.set key url v l) = some v := by
  induction l with
  | nil => simp [Coll.find?] at h
  | cons b rest ih =>
    by_cases hb : (key b == url) = true
    · simp [Coll.set, hb, Coll.find?, hk]
    · have hb' : (key b == url) = false := Bool.eq_false_iff.mpr hb
      have hrest : Coll.find? key url rest = some e := by
        simpa [Coll.find?, hb'] using h
      simp [Coll.set, hb', Coll.find?, ih hrest]

theorem Coll.set_set {α : Type} (key : α → String) (url : String) (v : α)
    (hk : (key v == url) = true) (l : List α) :
    Coll.set key url v (Coll.set key url v l) = Coll.set key url v l := by
  induction l with
  | nil => rfl
  | cons b rest ih =>
    by_cases hb : (key b == url) = true
    · simp [Coll.set, hb, hk]
    · have hb' : (key b == url) = false := Bool.eq_false_iff.mpr hb
      simp [Coll.set, hb', ih]

theorem Coll.upsert_twice {α : Type} (key : α → String) (url : String) (v : α)
    (hk : (key v == url) = true) (l : List α) :
    Coll.upsert key url v (Coll.upsert key url v l) = Coll.upsert key url v l := by
  unfold Coll.upsert
  cases h : Coll.find? key url l with
  | none =>
    rw [Coll.find_append_of_none key url v h hk]
    exact Coll.set_append_self key url v h hk
  | some e =>
    rw [Coll.find_set_of_found key url v h hk]
    exact Coll.set_set key url v hk l

theorem Coll.find_upsert {α : Type} (key : α → String) (url : String) (v : α)
    (hk : (key v == url) = true) (l : List α) :
    Coll.find? key url (Coll.upsert key url v l) = some v := by
  unfold Coll.upsert
  cases h : Coll.find? key url l with
  | none => exact Coll.find_append_of_none key url v h hk
  | some e => exact Coll.find_set_of_found key url v h hk

theorem upsertIdemDatabase (P : Database.Product) (coll : Database.Collection) :
    Database.UpsertProduct P (Database.UpsertProduct P coll) =
      Database.UpsertProduct P coll := by
  cases h : Coll.find? Database.Product.ProductURL P.ProductURL coll with
  | none =>
    have hk : (Database.Product.ProductURL P == P.ProductURL) = true := by simp
    have h1 : Database.UpsertProduct P coll =
        Coll.upsert Database.Product.ProductURL P.ProductURL P coll := by
      unfold Database.UpsertProduct Database.findByURL Database.upsertByURL
      rw [h]
    have h2 := Coll.find_upsert Database.Product.ProductURL P.ProductURL P hk coll
    rw [h1]
    unfold Database.UpsertProduct Database.findByURL Database.upsertByURL
    rw [h2]
    exact Coll.upsert_twice _ _ _ hk coll
  | some e =>
    have hk : (Database.Product.ProductURL
        { P with PriceHistory := e.PriceHistory } == P.ProductURL) = true := by simp
    have h1 : Database.UpsertProduct P coll =
        Coll.upsert Database.Product.ProductURL P.ProductURL
          { P with PriceHistory := e.PriceHistory } coll := by
      unfold Database.UpsertProduct Database.findByURL Database.upsertByURL
      rw [h]
    have h2 := Coll.find_upsert Database.Product.ProductURL P.ProductURL
      { P with PriceHistory := e.PriceHistory } hk coll
    rw [h1]
    unfold Database.UpsertProduct Database.findByURL Database.upsertByURL
    rw [h2]
    exact Coll.upsert_twice _ _ _ hk coll

theorem upsertIdemBackend (P : Backend.Product) (coll : Backend.Collection) :
    Backend.UpsertProduct P (Backend.UpsertProduct P coll) =
      Backend.UpsertProduct P coll := by
  cases h : Coll.find? Backend.Product.ProductURL P.ProductURL coll with
  | none =>
    have hk : (Backend.Product.ProductURL P == P.ProductURL) = true := by simp
    have h1 : Backend.UpsertProduct P coll =
        Coll.upsert Backend.Product.ProductURL P.ProductURL P coll := by
      unfold Backend.UpsertProduct Backend.findByURL
      rw [h]
    have h2 := Coll.find_upsert Backend.Product.ProductURL P.ProductURL P hk coll
    rw [h1]
    unfold Backend.UpsertProduct Backend.findByURL
    rw [h2]
    exact Coll.upsert_twice _ _ _ hk coll
  | some e =>
    have hk : (Backend.Product.ProductURL
        { P with PriceHistory := e.PriceHistory } == P.ProductURL) = true := by simp
    have h1 : Backend.UpsertProduct P coll =
        Coll.upsert Backend.Product.ProductURL P.ProductURL
          { P with PriceHistory := e.PriceHistory } coll := by
      unfold Backend.UpsertProduct Backend.findByURL
      rw [h]
    have h2 := Coll.find_upsert Backend.Product.ProductURL P.ProductURL
      { P with PriceHistory := e.PriceHistory } hk coll
    rw [h1]
    unfold Backend.UpsertProduct Backend.findByURL
    rw [h2]
    exact Coll.upsert_twice _ _ _ hk coll

/-- Claim C1: the spec requires a re-upsert for an existing `product_url` to
preserve the stored `price_history`, `min_price` and `max_price`.  The
`database` copy of `UpsertProduct` preserves only `price_history`: the two
lines restoring `MinPrice` / `MaxPrice` from the existing document are
commented out in the source, so the `$set` writes the incoming product's
aggregates.  Evaluated at the failing input: a stored product with aggregates
80 / 100 re-upserted with a details record carrying aggregates 0 / 0 keeps its
history but comes out with `min_price = max_price = 0`. -/
theorem claim_C1 :
    Database.UpsertProduct incomingC1 [storedC1] =
      [⟨"https://www.flipkart.com/item", "B", "img2", ["s2"], histC1, 0, 0⟩] ∧
    storedC1.MinPrice = 80 ∧ storedC1.MaxPrice = 100 ∧
    incomingC1.MinPrice = 0 ∧ incomingC1.MaxPrice = 0 :=
  ⟨rfl, rfl, rfl, rfl, rfl⟩

/-- Claim C2: after the four-operation sequence `runC2` (upsert, refresh at
price 50, descriptive re-upsert, refresh at price 100) — every step
successful — the stored product has `min_price = 100` while the minimum over
its `price_history` values is 50, because the intervening upsert reset the
aggregates to the sentinel.  So aggregate consistency is not a reachable-state
invariant of the code. -/
theorem claim_C2 :
    runC2.map Database.Product.MinPrice = [100] ∧
    runC2.map (fun p => listMinQ (p.PriceHistory.map Price.value)) = [some 50] ∧
    runC2.map Database.Product.MaxPrice = [100] ∧
    runC2.map (fun p => listMaxQ (p.PriceHistory.map Price.value)) = [some 100] := by
  refine ⟨by decide, by decide, by decide, by decide⟩

/-- Claim C8: upserting the same product twice in succession leaves the store
exactly as one upsert does, in both copies of the engine. -/
theorem claim_C8 : ∀ (P : Database.Product) (coll : Database.Collection)
    (Q : Backend.Product) (coll2 : Backend.Collection),
    Database.UpsertProduct P (Database.UpsertProduct P coll) =
      Database.UpsertProduct P coll ∧
    Backend.UpsertProduct Q (Backend.UpsertProduct Q coll2) =
      Backend.UpsertProduct Q coll2 :=
  fun P coll Q coll2 => ⟨upsertIdemDatabase P coll, upsertIdemBackend Q coll2⟩

/-- Claim C3 counterexample: the claim asserts the Amazon scraper is called for
every `product_url` containing `"amazon"`, but the dispatch checks
`"flipkart"` first; on a URL containing both substrings the pipeline calls only
the Flipkart scraper. -/
theorem claim_C3_counterexample :
    strHasSub urlC3 "amazon" = true ∧
    Backend.Event.callAmazon urlC3 ∉ (Backend.processItem envC3 0 (.ok productC3) []).2 ∧
    Backend.Event.callFlipkart urlC3 ∈ (Backend.processItem envC3 0 (.ok productC3) []).2 := by
  refine ⟨by decide, by decide, by decide⟩

/-- Claim C3 as amended: a `product_url` containing `"flipkart"` gets the
Flipkart scraper and never the Amazon one; a URL containing `"amazon"` but not
`"flipkart"` gets the Amazon scraper and never the Flipkart one; a URL
containing neither gets no scraper call, the item is skipped with only the
unsupported-vendor diagnostic, and the store is untouched. -/
theorem claim_C3 (env : Backend.PipelineEnv) (ts : ℕ) (p : Backend.Product)
    (coll : Backend.Collection) :
    (strHasSub p.ProductURL "flipkart" = true →
      Backend.Event.callFlipkart p.ProductURL ∈
        (Backend.processItem env ts (.ok p) coll).2 ∧
      ∀ u, Backend.Event.callAmazon u ∉ (Backend.processItem env ts (.ok p) coll).2) ∧
    (strHasSub p.ProductURL "flipkart" = false →
      strHasSub p.ProductURL "amazon" = true →
      Backend.Event.callAmazon p.ProductURL ∈
        (Backend.processItem env ts (.ok p) coll).2 ∧
      ∀ u, Backend.Event.callFlipkart u ∉ (Backend.processItem env ts (.ok p) coll).2) ∧
    (strHasSub p.ProductURL "flipkart" = false →
      strHasSub p.ProductURL "amazon" = false →
      Backend.processItem env ts (.ok p) coll =
        (coll, [.logUnsupported p.ProductURL])) := by
  refine ⟨?_, ?_, ?_⟩
  · intro hf
    by_cases hE : (env.flipkart p.ProductURL).2 = true
    · simp [Backend.processItem, hf, hE]
    · have hE2 : (env.flipkart p.ProductURL).2 = false := by simpa using hE
      cases hpf : parseFloat (env.flipkart p.ProductURL).1 with
      | none => simp [Backend.processItem, hf, hE2, hpf]
      | some v =>
        by_cases hw : env.writeOk p.ProductURL = true
        · simp [Backend.processItem, hf, hE2, hpf, hw]
        · have hw2 : env.writeOk p.ProductURL = false := by simpa using hw
          simp [Backend.processItem, hf, hE2, hpf, hw2]
  · intro hf ha
    by_cases hE : (env.amazon p.ProductURL).2 = true
    · simp [Backend.processItem, hf, ha, hE]
    · have hE2 : (env.amazon p.ProductURL).2 = false := by simpa using hE
      cases hpf : parseFloat (env.amazon p.ProductURL).1 with
      | none => simp [Backend.processItem, hf, ha, hE2, hpf]
      | some v =>
        by_cases hw : env.writeOk p.ProductURL = true
        · simp [Backend.processItem, hf, ha, hE2, hpf, hw]
        · have hw2 : env.writeOk p.ProductURL = false := by simpa using hw
          simp [Backend.processItem, hf, ha, hE2, hpf, hw2]
  · intro hf ha
    simp [Backend.processItem, hf, ha]

/-- Claim C3 witness: on a Flipkart URL the first arm of the amended claim
applies. -/
theorem claim_C3_witness :
    Backend.Event.callFlipkart productC3w.ProductURL ∈
      (Backend.processItem envC3 0 (.ok productC3w) []).2 ∧
    ∀ u, Backend.Event.callAmazon u ∉ (Backend.processItem envC3 0 (.ok productC3w) []).2 :=
  (claim_C3 envC3 0 productC3w []).1 (by decide)

/-- Claim C4: when the dispatched scrape of a product fails, the pipeline
iteration leaves the store unchanged (so nothing is appended to the failed
product's history), emits the scrape diagnostic, and the loop proceeds to the
remaining items from the same store. -/
theorem claim_C4 (env : Backend.PipelineEnv) (ts : ℕ) (p : Backend.Product)
    (rest : List Backend.ScanItem) (coll : Backend.Collection)
    (hfail : (strHasSub p.ProductURL "flipkart" = true ∧
                (env.flipkart p.ProductURL).2 = true) ∨
             (strHasSub p.ProductURL "flipkart" = false ∧
                strHasSub p.ProductURL "amazon" = true ∧
                (env.amazon p.ProductURL).2 = true)) :
    (Backend.processItem env ts (.ok p) coll).1 = coll ∧
    Backend.Event.logScrape p.ProductURL ∈ (Backend.processItem env ts (.ok p) coll).2 ∧
    Backend.runItems env ts (.ok p :: rest) coll =
      ((Backend.runItems env (ts + 1) rest coll).1,
       (Backend.processItem env ts (.ok p) coll).2 ++
         (Backend.runItems env (ts + 1) rest coll).2) := by
  have hpi : (Backend.processItem env ts (.ok p) coll).1 = coll ∧
      Backend.Event.logScrape p.ProductURL ∈
        (Backend.processItem env ts (.ok p) coll).2 := by
    rcases hfail with ⟨hf, hE⟩ | ⟨hf, ha, hE⟩
    · constructor <;> simp [Backend.processItem, hf, hE]
    · constructor <;> simp [Backend.processItem, hf, ha, hE]
  refine ⟨hpi.1, hpi.2, ?_⟩
  rw [Backend.runItems, hpi.1]

/-- Claim C4 witness: a Flipkart product whose scrape fails, followed by an
empty remainder. -/
theorem claim_C4_witness :
    (Backend.processItem envC4 0 (.ok productC4) collC4).1 = collC4 ∧
    Backend.Event.logScrape productC4.ProductURL ∈
      (Backend.processItem envC4 0 (.ok productC4) collC4).2 ∧
    Backend.runItems envC4 0 (.ok productC4 :: []) collC4 =
      ((Backend.runItems envC4 (0 + 1) [] collC4).1,
       (Backend.processItem envC4 0 (.ok productC4) collC4).2 ++
         (Backend.runItems envC4 (0 + 1) [] collC4).2) :=
  claim_C4 envC4 0 productC4 [] collC4 (Or.inl ⟨by decide, rfl⟩)

/-- Claim C5: whenever the initial scan succeeds, the bulk refresh returns
success, for every combination of per-item decode, scrape, parse,
unsupported-vendor and write failures the oracles and the cursor yield can
inject; the loop body never returns an error. -/
theorem claim_C5 (env : Backend.PipelineEnv) (ts : ℕ)
    (items : List Backend.ScanItem) (coll : Backend.Collection)
    (hfind : env.findOk = true) :
    Backend.UpdatePrices env ts items coll =
      .ok (Backend.runItems env ts items coll) := by
  simp [Backend.UpdatePrices, hfind]

/-- Claim C5 witness: a run whose five items hit, in order, a decode failure,
a scrape failure, a parse failure, an unsupported vendor and a write failure,
still returns success. -/
theorem claim_C5_witness :
    Backend.UpdatePrices envC5 0 itemsC5 [] =
      .ok (Backend.runItems envC5 0 itemsC5 []) :=
  claim_C5 envC5 0 itemsC5 [] rfl

/-- Claim C6: in the aggregate update step of the refresh, `min_price` is set
to the scraped price exactly when it is the sentinel 0 or the price is
strictly below it, `max_price` symmetrically, and a fresh product with both
aggregates 0 gets both collapsed to the first price. -/
theorem claim_C6 (minPrice maxPrice p : ℚ) :
    ((minPrice = 0 ∨ p < minPrice) → Database.updMin minPrice p = p) ∧
    (¬(minPrice = 0 ∨ p < minPrice) → Database.updMin minPrice p = minPrice) ∧
    ((maxPrice = 0 ∨ p > maxPrice) → Database.updMax maxPrice p = p) ∧
    (¬(maxPrice = 0 ∨ p > maxPrice) → Database.updMax maxPrice p = maxPrice) ∧
    Database.updMin 0 p = p ∧ Database.updMax 0 p = p := by
  unfold Database.updMin Database.updMax
  refine ⟨?_, ?_, ?_, ?_, ?_, ?_⟩ <;> intros <;> simp [*]

/-- Claim C6 witness: with `min_price = max_price = 7`, a price of 5 lowers the
minimum and a price of 9 raises the maximum. -/
theorem claim_C6_witness :
    Database.updMin 7 5 = 5 ∧ Database.updMax 7 9 = 9 :=
  ⟨(claim_C6 7 7 5).1 (Or.inr (by norm_num)),
   (claim_C6 7 7 9).2.2.1 (Or.inr (by norm_num))⟩

/-- Claim C7: the incomplete-records filter matches a stored document exactly
when it fails the spec's completeness predicate I4 (name nonempty, image
nonempty, at least one specification, absent fields decoding to zero
values). -/
theorem claim_C7 (d : Bson.Doc) :
    Bson.incompleteFilter d = true ↔ ¬ Bson.isCompleteSpec d = true := by
  rcases d with ⟨u, n, i, s⟩
  rcases n with _ | n <;> rcases i with _ | i <;> rcases s with _ | s <;>
    simp [Bson.incompleteFilter, Bson.isCompleteSpec] <;>
    rcases s with _ | ⟨a, s⟩ <;> simp <;> tauto

theorem Backend.pushPrice_of_find_none (url : String) (pr : Price)
    {coll : Backend.Collection} (h : Backend.findByURL url coll = none) :
    Backend.pushPrice url pr coll = coll := by
  induction coll with
  | nil => rfl
  | cons b rest ih =>
    have hb : (Backend.Product.ProductURL b == url) = false :=
      Coll.find_none_elem Backend.Product.ProductURL url h b (List.mem_cons_self b rest)
    have hrest : Backend.findByURL url rest = none := by
      simpa [Backend.findByURL, Coll.find?, hb] using h
    simp [Backend.pushPrice, hb, ih hrest]

theorem Backend.find_pushPrice (url : String) (pr : Price)
    {coll : Backend.Collection} {e : Backend.Product}
    (h : Backend.findByURL url coll = some e) :
    Backend.findByURL url (Backend.pushPrice url pr coll) =
      some { e with PriceHistory := e.PriceHistory ++ [pr] } := by
  induction coll with
  | nil => simp [Backend.findByURL, Coll.find?] at h
  | cons b rest ih =>
    by_cases hb : (b.ProductURL == url) = true
    · have hbe : b = e := by simpa [Backend.findByURL, Coll.find?, hb] using h
      subst hbe
      simp [Backend.pushPrice, hb, Backend.findByURL, Coll.find?]
    · have hb2 : (b.ProductURL == url) = false := by simpa using hb
      have hrest : Backend.findByURL url rest = some e := by
        simpa [Backend.findByURL, Coll.find?, hb2] using h
      have ih2 := ih hrest
      simp only [Backend.pushPrice, hb2, Bool.false_eq_true, if_false]
      simpa [Backend.findByURL, Coll.find?, hb2] using ih2

/-- Claim C9 counterexample: on an empty collection, `AddPrice` returns a nil
error and leaves the store untouched — there is no not-found failure, because
the `$push` update is issued without upsert and a zero matched-count is not a
driver error. -/
theorem claim_C9_counterexample :
    Backend.AddPrice "https://www.amazon.in/p9" 5 0 ([] : Backend.Collection) =
      (none, []) := rfl

/-- Claim C9 as amended: `AddPrice` appends the price, stamped with the current
clock, to the history of the product matching the URL; when no product
matches, it returns success and leaves the collection unchanged instead of
failing with a not-found error. -/
theorem claim_C9 (url : String) (price : ℚ) (ts : ℕ) (coll : Backend.Collection) :
    (Backend.AddPrice url price ts coll).1 = none ∧
    (Backend.findByURL url coll = none →
      (Backend.AddPrice url price ts coll).2 = coll) ∧
    (∀ e, Backend.findByURL url coll = some e →
      Backend.findByURL url (Backend.AddPrice url price ts coll).2 =
        some { e with PriceHistory := e.PriceHistory ++ [⟨price, ts⟩] }) := by
  refine ⟨rfl, ?_, ?_⟩
  · intro h
    exact Backend.pushPrice_of_find_none url ⟨price, ts⟩ h
  · intro e h
    exact Backend.find_pushPrice url ⟨price, ts⟩ h

/-- Claim C9 witness: appending price 5 at tick 3 to the one stored product. -/
theorem claim_C9_witness :
    Backend.findByURL "https://www.amazon.in/w9"
        (Backend.AddPrice "https://www.amazon.in/w9" 5 3 collC9).2 =
      some { docC9 with PriceHistory := docC9.PriceHistory ++ [⟨5, 3⟩] } :=
  (claim_C9 "https://www.amazon.in/w9" 5 3 collC9).2.2 docC9 rfl

/-- Claim C10 counterexample: the claim quantifies over every handle, but a
handle opened for user `"cypher"` has the repair pass's target as its own
collection, and the pass writes it (here, an incomplete product gets its
scraped details upserted). -/
theorem claim_C10_counterexample :
    Backend.UpdateIncompleteRecords envC10 handleC10 dbsC10 handleC10.collName ≠
      dbsC10 handleC10.collName := by decide

/-- Claim C10 as amended: the repair pass ignores its receiver entirely — the
result is the same for any two handles — and it touches only the fixed
collection `"cypher"` of the freshly opened session, so the receiver's own
collection is untouched whenever the receiver was not opened for user
`"cypher"`. -/
theorem claim_C10 (env : Backend.RepairEnv) (m m2 : Backend.Handle)
    (dbs : Backend.DBState) :
    Backend.UpdateIncompleteRecords env m dbs =
      Backend.UpdateIncompleteRecords env m2 dbs ∧
    (∀ c, c ≠ "cypher" → Backend.UpdateIncompleteRecords env m dbs c = dbs c) := by
  constructor
  · rfl
  · intro c hc
    simp [Backend.UpdateIncompleteRecords, Backend.NewMongoDB, hc]

/-- Claim C10 witness: a handle opened for `"alice"` finds its own collection
unchanged by the repair pass. -/
theorem claim_C10_witness :
    Backend.UpdateIncompleteRecords envC10 handleC10w dbsC10 "alice" =
      dbsC10 "alice" :=
  (claim_C10 envC10 handleC10w handleC10w dbsC10).2 "alice" (by decide)

end PriceTrack
